import Mathlib

/-!
Verification of the 0install injector core (`zeroinstall/injector/run.py` and
`zeroinstall/injector/handler.py`) against its natural-language specification.

The Python sources are shallowly embedded: environment mutation becomes explicit
state passing over an association-list environment, observable side effects
(cache lookups, filesystem existence checks, trust-store writes, download
starts/aborts) become events in an explicit trace, and exceptions become error
results. Sub-modules the sources call but that are not part of the excerpted
code (`model.py`, `trust.py`, `download.py`) are modelled from the spec, as
marked in their doc comments.
-/

set_option autoImplicit false

namespace ZeroInstall

/-! ## Python-style string helpers (over the character-list model of `String`) -/

/-- Boolean prefix test on character lists. -/
def listPrefixOf : List Char → List Char → Bool
  | [], _ => true
  | _ :: _, [] => false
  | a :: as, b :: bs => a = b && listPrefixOf as bs

/-- Boolean substring (contiguous) test on character lists, Python's `a in b`
for strings. -/
def listInfixOf (a : List Char) : List Char → Bool
  | [] => a.isEmpty
  | b :: bs => listPrefixOf a (b :: bs) || listInfixOf a bs

/-- Python `s.startswith(pre)`. -/
def strStartsWith (s pre : String) : Bool := listPrefixOf pre.data s.data

/-- Python `a in b` on strings (substring test). -/
def pyIn (a b : String) : Bool := listInfixOf a.data b.data

/-- Python truthiness of an optional string: `None` and `''` are falsy. -/
def pyTruthy : Option String → Bool
  | none => false
  | some s => !s.data.isEmpty

/-- Python `s[1:]`. -/
def strDropOne (s : String) : String := ⟨s.data.drop 1⟩

/-- `os.path.join` for two components, as in posixpath: an absolute second
component wins; otherwise the components are joined with a single slash. -/
def pyJoin (a b : String) : String :=
  if listPrefixOf ['/'] b.data then b
  else if a.data.isEmpty then b
  else if a.data.getLast? = some '/' then ⟨a.data ++ b.data⟩
  else ⟨a.data ++ '/' :: b.data⟩

/-- Strip trailing slashes from a character list. -/
def rstripSlash (cs : List Char) : List Char :=
  (cs.reverse.dropWhile (fun c => c = '/')).reverse

/-- `os.path.dirname` on character lists: everything up to the last slash,
with trailing slashes stripped unless the head is all slashes. -/
def dirnameChars (cs : List Char) : List Char :=
  let head := (cs.reverse.dropWhile (fun c => c ≠ '/')).reverse
  if head.isEmpty then []
  else if head.all (fun c => c = '/') then head
  else rstripSlash head

/-- `os.path.dirname`. -/
def dirname (p : String) : String := ⟨dirnameChars p.data⟩

/-! ## The process environment -/

/-- The process environment, `os.environ`, as an association list. -/
abbrev Env := List (String × String)

/-- `os.environ.get(k, None)`. -/
def envGet (e : Env) (k : String) : Option String :=
  match e with
  | [] => none
  | (k', v) :: rest => if k' = k then some v else envGet rest k

/-- `os.environ[k] = v`: update in place, or append a fresh entry. -/
def envSet (e : Env) (k v : String) : Env :=
  match e with
  | [] => [(k, v)]
  | (k', v') :: rest => if k' = k then (k, v) :: rest else (k', v') :: envSet rest k v

/-! ## Observable effects of the `run.py` functions -/

/-- Observable side effects of the execution path, in program order. -/
inductive RunEvent where
  | envSet (name : String) (value : String)
  | cacheLookup (id : String)
  | fsCheck (path : String)
deriving DecidableEq

/-- The mutable world `run.py` acts on: the process environment plus the trace
of observable effects performed so far. -/
structure World where
  env : Env
  events : List RunEvent
deriving DecidableEq

/-! ## Bindings (`run.py` lines 14-17 and 42-49) -/

/-- Modelled from the spec: `EnvironmentBinding` is declared in
`zeroinstall/injector/model.py`, which is not among the excerpted sources. Per
the spec it names an environment variable together with a combination rule for
the dependency's installed path. -/
structure EnvironmentBinding where
  name : String
deriving DecidableEq

/-- Modelled from the spec: `EnvironmentBinding.get_value` (in `model.py`, not
among the excerpted sources) combines the dependency's installed path into the
variable's value, "seeded with the variable's current value if any", with
prepend-to-a-path-list as the combination rule. -/
def EnvironmentBinding.get_value (_b : EnvironmentBinding) (path : String)
    (old : Option String) : String :=
  match old with
  | none => path
  | some v => path ++ ":" ++ v

/-- A binding as dispatched by `_do_bindings`: either an `EnvironmentBinding`
or some other binding kind, which `_do_bindings` ignores. -/
inductive Binding where
  | env (b : EnvironmentBinding)
  | other
deriving DecidableEq

/-- `do_env_binding` (run.py:14-16): set the variable to the combined value. -/
def do_env_binding (b : EnvironmentBinding) (path : String) (w : World) : World :=
  let v := b.get_value path (envGet w.env b.name)
  { env := envSet w.env b.name v, events := w.events ++ [RunEvent.envSet b.name v] }

/-- `_get_implementation_path` (run.py:47-49): an absolute id is its own path;
otherwise the content-addressed store is consulted (`stores` stands for
`iface_cache.stores.lookup`, an external service per the spec). The lookup is
recorded in the trace. -/
def _get_implementation_path (stores : String → String) (id : String) (w : World) :
    String × World :=
  if strStartsWith id "/" then (id, w)
  else (stores id, { w with events := w.events ++ [RunEvent.cacheLookup id] })

/-! ## Selections (`run.py` lines 51-67) -/

/-- A dependency edge of a selection, carrying the bindings to apply. -/
structure Dependency where
  interface : String
  bindings : List Binding
deriving DecidableEq

/-- One selection: the chosen implementation for one interface. -/
structure Selection where
  id : String
  main : Option String
  bindings : List Binding
  dependencies : List Dependency
deriving DecidableEq

/-- A selection set: the root interface URI and the interface-to-selection
table. -/
structure Selections where
  interface : String
  sels : List (String × Selection)
deriving DecidableEq

/-- Lookup in the interface-to-selection table (`sels[uri]`). -/
def selsGet (t : List (String × Selection)) (k : String) : Option Selection :=
  match t with
  | [] => none
  | (k', s) :: rest => if k' = k then some s else selsGet rest k

/-- `_do_bindings` (run.py:42-45): apply each `EnvironmentBinding` with the
implementation's installed path; other binding kinds are skipped. -/
def _do_bindings (stores : String → String) (impl : Selection) :
    List Binding → World → World
  | [], w => w
  | Binding.env eb :: rest, w =>
      let pr := _get_implementation_path stores impl.id w
      _do_bindings stores impl rest (do_env_binding eb pr.1 pr.2)
  | Binding.other :: rest, w => _do_bindings stores impl rest w

/-- Failures raised on the execution path. -/
inductive RunError where
  | keyError (iface : String)
  | missingEntryPoint (id : String)
  | missingExecutableFile (path : String) (id : String) (main : String)
  | nameError
deriving DecidableEq

/-- The dependency part of the binding loop in `execute_selections`
(run.py:61-64): for each dependency, look its selection up (a missing entry is
Python's `KeyError`) and, unless it is a `package:` implementation, apply the
edge's bindings. -/
def bindDeps (stores : String → String) (sels : List (String × Selection)) :
    List Dependency → World → World × Option RunError
  | [], w => (w, none)
  | dep :: rest, w =>
      match selsGet sels dep.interface with
      | none => (w, some (RunError.keyError dep.interface))
      | some dep_impl =>
          if strStartsWith dep_impl.id "package:" then bindDeps stores sels rest w
          else bindDeps stores sels rest (_do_bindings stores dep_impl dep.bindings w)

/-- The outer binding loop of `execute_selections` (run.py:59-64): for every
selection, apply its own bindings and then its dependencies' bindings. -/
def bindAll (stores : String → String) (sels : List (String × Selection)) :
    List (String × Selection) → World → World × Option RunError
  | [], w => (w, none)
  | (_, sel) :: rest, w =>
      let w1 := _do_bindings stores sel sel.bindings w
      match bindDeps stores sels sel.dependencies w1 with
      | (w2, some e) => (w2, some e)
      | (w2, none) => bindAll stores sels rest w2

/-- The whole binding phase of `execute_selections` (run.py:58-64). -/
def bindingPhase (stores : String → String) (s : Selections) (w : World) :
    World × Option RunError :=
  bindAll stores s.sels s.sels w

/-! ## `_execute` (run.py:108-146) -/

/-- How a run that reached the final stage ends: a dry run reports the command
line and returns normally; a live run replaces the process image. -/
inductive ExecOutcome where
  | reported (path : String) (args : List String)
  | execed (path : String) (args : List String)
deriving DecidableEq

/-- The entry-point resolution of `_execute` (run.py:111-120): for a `package:`
implementation `main = main or root_impl.main`; otherwise an absent override
falls back to the declared `main`, an absolute override has its leading slash
stripped, and a relative override is resolved against the declared `main`'s
directory when one exists. -/
def resolve_main (root_impl : Selection) (main : Option String) : Option String :=
  if strStartsWith root_impl.id "package:" then
    if pyTruthy main then main else root_impl.main
  else
    match main with
    | none => root_impl.main
    | some m =>
        if strStartsWith m "/" then some (strDropOne m)
        else if pyTruthy root_impl.main then
          some (pyJoin (dirname (root_impl.main.getD "")) m)
        else some m

/-- The `prog_path` assignment of `_execute` (run.py:113 and 121-122): a
`package:` implementation takes the resolved entry point verbatim; otherwise,
when the resolved entry point is truthy, it is joined to the implementation's
store path. A `none` result models Python's `prog_path` staying unassigned. -/
def compute_prog_path (stores : String → String) (root_impl : Selection)
    (m : Option String) (w : World) : Option String × World :=
  if strStartsWith root_impl.id "package:" then (m, w)
  else if pyTruthy m then
    let pr := _get_implementation_path stores root_impl.id w
    (some (pyJoin pr.1 (m.getD "")), pr.2)
  else (none, w)

/-- The final stage of `_execute` (run.py:133-146): a truthy wrapper rewrites
the invocation to `/bin/sh -c '<wrapper> "$@"' - <prog_path> <args...>`; a dry
run reports the command line, a live run transfers control to it. -/
def finalOutcome (wrapper : Option String) (dry_run : Bool) (p : String)
    (prog_args : List String) : ExecOutcome :=
  if pyTruthy wrapper then
    let wargs := ["-c", wrapper.getD "" ++ " \"$@\"", "-", p] ++ prog_args
    if dry_run then ExecOutcome.reported "/bin/sh" wargs
    else ExecOutcome.execed "/bin/sh" wargs
  else
    if dry_run then ExecOutcome.reported p prog_args
    else ExecOutcome.execed p prog_args

/-- `_execute` (run.py:108-146): resolve the entry point, fail with the
library-only error when there is none, check the file exists (`nameError`
models Python's unbound `prog_path` when the resolved entry point is the empty
string in the non-package branch), wrap the invocation if a wrapper is set, and
either report (dry run) or transfer control. -/
def _execute (stores : String → String) (fs : String → Bool) (root_impl : Selection)
    (prog_args : List String) (dry_run : Bool) (main wrapper : Option String)
    (w : World) : Except RunError ExecOutcome × World :=
  let m := resolve_main root_impl main
  let pw := compute_prog_path stores root_impl m w
  match m with
  | none => (Except.error (RunError.missingEntryPoint root_impl.id), pw.2)
  | some mv =>
      match pw.1 with
      | none => (Except.error RunError.nameError, pw.2)
      | some p =>
          let w2 : World := { env := pw.2.env, events := pw.2.events ++ [RunEvent.fsCheck p] }
          if fs p then (Except.ok (finalOutcome wrapper dry_run p prog_args), w2)
          else (Except.error (RunError.missingExecutableFile p root_impl.id mv), w2)

/-- `execute_selections` (run.py:51-67): run the binding phase over all
selections, then launch the root selection via `_execute`. -/
def execute_selections (stores : String → String) (fs : String → Bool)
    (s : Selections) (prog_args : List String) (dry_run : Bool)
    (main wrapper : Option String) (w : World) : Except RunError ExecOutcome × World :=
  match bindingPhase stores s w with
  | (w1, some e) => (Except.error e, w1)
  | (w1, none) =>
      match selsGet s.sels s.interface with
      | none => (Except.error (RunError.keyError s.interface), w1)
      | some root => _execute stores fs root prog_args dry_run main wrapper w1

/-- Whether a binding list contains any `EnvironmentBinding` (the only kind
`_do_bindings` acts on). -/
def bindingsHaveEnv (bs : List Binding) : Bool :=
  bs.any fun b => match b with | Binding.env _ => true | Binding.other => false

/-- Whether any binding list reachable by the binding phase of
`execute_selections` contains an `EnvironmentBinding`. -/
def selectionsHaveEnv (s : Selections) : Bool :=
  s.sels.any fun q =>
    bindingsHaveEnv q.2.bindings
      || q.2.dependencies.any fun d => bindingsHaveEnv d.bindings

/-! ## The download coordinator (`handler.py` lines 19-101) -/

/-- A `download.Download` object. `download.py` is not among the excerpted
sources; per the spec a Download is identified by its source URL, so the model
keeps the URL plus an allocation number distinguishing object identities. -/
structure Download where
  id : Nat
  url : String
deriving DecidableEq

/-- Observable actions of the coordinator, in program order. `started` is the
`dl.start()` call, `aborted` the `dl.abort()` call (modelled from the spec's
Download state machine, `download.py` not being among the excerpted sources),
`watchAdded` the `gobject.io_add_watch` registration, and `tableSet` the write
to `monitored_downloads`. -/
inductive DlEvent where
  | created (id : Nat)
  | started (id : Nat)
  | watchAdded (id : Nat)
  | aborted (id : Nat)
  | tableSet (url : String) (id : Nat)
deriving DecidableEq

/-- The state of a `Handler`: the URL-to-Download table `monitored_downloads`,
whether `_loop` is set (a `wait_for_downloads` call is active), the next fresh
allocation number, and the trace of observable actions. -/
structure HandlerState where
  monitored_downloads : List (String × Download)
  loopActive : Bool
  nextId : Nat
  events : List DlEvent
deriving DecidableEq

/-- Lookup in `monitored_downloads` (the stored error stream is elided). -/
def tableGet (t : List (String × Download)) (u : String) : Option Download :=
  match t with
  | [] => none
  | (k, d) :: rest => if k = u then some d else tableGet rest u

/-- `monitored_downloads[u] = (stream, d)`: update in place or append. -/
def tableSet (t : List (String × Download)) (u : String) (d : Download) :
    List (String × Download) :=
  match t with
  | [] => [(u, d)]
  | (k, d') :: rest => if k = u then (u, d) :: rest else (k, d') :: tableSet rest u d

/-- `monitor_download` (handler.py:33-45): start the download, record it in the
table under its URL, and register its error stream with the event loop. -/
def monitor_download (st : HandlerState) (dl : Download) : HandlerState :=
  { st with
    monitored_downloads := tableSet st.monitored_downloads dl.url dl,
    events := st.events ++ [DlEvent.started dl.id, DlEvent.tableSet dl.url dl.id,
                            DlEvent.watchAdded dl.id] }

/-- The `dl = download.Download(url); self.monitor_download(dl)` path of
`get_download` (handler.py:99-100), allocating a fresh Download. -/
def create_download (st : HandlerState) (url : String) : HandlerState × Download :=
  let dl : Download := { id := st.nextId, url := url }
  (monitor_download
    { st with nextId := st.nextId + 1, events := st.events ++ [DlEvent.created dl.id] }
    dl, dl)

/-- `get_download` (handler.py:84-101): return the tracked Download for the
URL; with `force` abort the tracked one first (the `raise KeyError` path) and
start a fresh one; with no tracked Download start a fresh one. -/
def get_download (st : HandlerState) (url : String) (force : Bool) :
    HandlerState × Download :=
  match tableGet st.monitored_downloads url with
  | some dl =>
      if force then
        create_download { st with events := st.events ++ [DlEvent.aborted dl.id] } url
      else (st, dl)
  | none => create_download st url

/-- How a call to `wait_for_downloads` resolves. -/
inductive WaitOutcome where
  | assertFailed
  | enteredLoop
  | returnedImmediately
deriving DecidableEq

/-- `wait_for_downloads` (handler.py:67-82): with no tracked downloads return
at once; otherwise `assert self._loop is None` and run a nested main loop. -/
def wait_for_downloads (st : HandlerState) : WaitOutcome :=
  if st.monitored_downloads.isEmpty then WaitOutcome.returnedImmediately
  else if st.loopActive then WaitOutcome.assertFailed
  else WaitOutcome.enteredLoop

/-! ## Trust confirmation (`handler.py` lines 103-139) -/

/-- One signature from `gpg.check_stream`: whether it is a `gpg.ValidSig`, and
its key fingerprint. -/
structure Sig where
  valid : Bool
  fingerprint : String
deriving DecidableEq

/-- Observable actions on the trust store: `trust.trust_db.trust_key` and
`trust.trust_db.notify`, modelled from the spec (`trust.py` is not among the
excerpted sources) as an append-only write plus a change broadcast. -/
inductive TrustEvent where
  | trustKey (fingerprint : String) (domain : String)
  | notify
deriving DecidableEq

/-- Failures of `confirm_trust_keys`: the `assert sigs` failure, the
no-valid-signatures `SafeException`, the not-signed-with-a-trusted-key
`SafeException`, and `raw_input` hitting end of input. -/
inductive ConfirmError where
  | assertFail
  | noValidSig
  | notTrusted
  | eofError
deriving DecidableEq

/-- Modelled from the spec: `trust.domain_from_url` (in `trust.py`, not among
the excerpted sources) derives the trust domain deterministically from the
interface URI's authority component, i.e. the text between the scheme
separator and the next slash. `dropThroughSep` drops through the first
scheme separator. -/
def dropThroughSep : List Char → List Char
  | [] => []
  | ':' :: '/' :: '/' :: rest => rest
  | _ :: rest => dropThroughSep rest

/-- Modelled from the spec: the trust domain is the authority component of the
interface URI. -/
def domain_from_url (url : String) : String :=
  ⟨(dropThroughSep url.data).takeWhile (fun c => c ≠ '/')⟩

/-- The `raw_input` confirmation loop of `confirm_trust_keys`
(handler.py:128-134): empty answers are skipped, an answer contained in the
string `Nn` refuses, an answer contained in `Yy` confirms, anything else asks
again; exhausting the input is `raw_input`'s end-of-file failure. -/
def askLoop : List String → Except ConfirmError Unit
  | [] => Except.error ConfirmError.eofError
  | i :: rest =>
      if i = "" then askLoop rest
      else if pyIn i "Nn" then Except.error ConfirmError.notTrusted
      else if pyIn i "Yy" then Except.ok ()
      else askLoop rest

/-- `confirm_trust_keys` (handler.py:103-139): `assert sigs`; fail when no
signature is a `gpg.ValidSig`; otherwise ask the user and, on confirmation,
trust every valid signature's fingerprint for the URI's domain and notify the
trust store once. The second component is the trace of trust-store actions. -/
def confirm_trust_keys (interface_uri : String) (sigs : List Sig)
    (responses : List String) : Except ConfirmError Unit × List TrustEvent :=
  if sigs.isEmpty then (Except.error ConfirmError.assertFail, [])
  else
    let valid_sigs := sigs.filter (fun s => s.valid)
    if valid_sigs.isEmpty then (Except.error ConfirmError.noValidSig, [])
    else
      let domain := domain_from_url interface_uri
      match askLoop responses with
      | Except.error e => (Except.error e, [])
      | Except.ok _ =>
          (Except.ok (),
           (valid_sigs.map fun s => TrustEvent.trustKey s.fingerprint domain)
             ++ [TrustEvent.notify])

/-- Decidable equality for `Except`, so that concrete runs can be checked by
`decide`. -/
instance instDecEqExcept {ε α : Type} [DecidableEq ε] [DecidableEq α] :
    DecidableEq (Except ε α) := fun a b =>
  match a, b with
  | Except.error x, Except.error y =>
      if h : x = y then isTrue (congrArg Except.error h)
      else isFalse fun hc => h (by injection hc)
  | Except.error _, Except.ok _ => isFalse fun hc => by injection hc
  | Except.ok _, Except.error _ => isFalse fun hc => by injection hc
  | Except.ok x, Except.ok y =>
      if h : x = y then isTrue (congrArg Except.ok h)
      else isFalse fun hc => h (by injection hc)

/-! ## Concrete inputs used by closed theorems -/

/-- A store resolving every content-addressed id to the same directory. -/
def stores0 : String → String := fun _ => "/store"

/-- A filesystem on which every path exists. -/
def fs0 : String → Bool := fun _ => true

/-- The initial world: empty environment, empty trace. -/
def w0 : World := { env := [], events := [] }

def c1sel : Selection :=
  { id := "/impl", main := some "run",
    bindings := [Binding.env { name := "ZI" }], dependencies := [] }

def c1set : Selections :=
  { interface := "http://e/i", sels := [("http://e/i", c1sel)] }

def c2sel : Selection :=
  { id := "/impl", main := some "run",
    bindings := [Binding.env { name := "ZI2" }], dependencies := [] }

def c2set : Selections :=
  { interface := "http://e/i", sels := [("http://e/i", c2sel)] }

/-- The world after the binding phase of `c2set` from `w0`. -/
def c2w1 : World :=
  { env := [("ZI2", "/impl")], events := [RunEvent.envSet "ZI2" "/impl"] }

def dl50 : Download := { id := 0, url := "http://dl/u" }

def st5 : HandlerState :=
  { monitored_downloads := [("http://dl/u", dl50)], loopActive := false,
    nextId := 1, events := [] }

def st6 : HandlerState :=
  { monitored_downloads := [], loopActive := true, nextId := 0, events := [] }

def st6b : HandlerState :=
  { monitored_downloads := [("u", { id := 0, url := "u" })], loopActive := true,
    nextId := 1, events := [] }

def sigs7 : List Sig :=
  [{ valid := true, fingerprint := "FP1" }, { valid := false, fingerprint := "NO" },
   { valid := true, fingerprint := "FP2" }]

def impl8 : Selection := { id := "/i8", main := none, bindings := [], dependencies := [] }

def impl8b : Selection := { id := "/i8b", main := none, bindings := [], dependencies := [] }

def impl9 : Selection :=
  { id := "/i9", main := some "run", bindings := [], dependencies := [] }

def impl10 : Selection :=
  { id := "package:gimp", main := some "/usr/bin/gimp", bindings := [], dependencies := [] }

/-! ## Helper lemmas -/

theorem strDataAppend (a b : String) : (a ++ b).data = a.data ++ b.data := rfl

theorem envGet_envSet (e : Env) (k v : String) : envGet (envSet e k v) k = some v := by
  induction e with
  | nil => simp [envSet, envGet]
  | cons p rest ih =>
      by_cases h : p.1 = k
      · simp [envSet, envGet, h]
      · simp [envSet, envGet, h, ih]

theorem prepend_colon_ne (p v : String) : p ++ ":" ++ v ≠ v := by
  intro h
  have h2 : (p ++ ":" ++ v).data.length = v.data.length := by rw [h]
  simp [strDataAppend, List.length_append] at h2
  omega

/-! ## C1 -/

/-- C1 counterexample: on a selection set with a single environment binding,
running the binding phase of `execute_selections` a second time with the same
inputs changes the bound variable from `/impl` to `/impl:/impl`, so the
environment after two applications differs from the environment after one. -/
theorem c1_counterexample :
    envGet (bindingPhase stores0 c1set (bindingPhase stores0 c1set w0).1).1.env "ZI"
        = some "/impl:/impl"
  ∧ envGet (bindingPhase stores0 c1set w0).1.env "ZI" = some "/impl"
  ∧ (bindingPhase stores0 c1set (bindingPhase stores0 c1set w0).1).1.env
        ≠ (bindingPhase stores0 c1set w0).1.env := by
  refine ⟨by decide, by decide, by decide⟩

/-- C1 (corrected): binding application is not idempotent. Applying
`do_env_binding` once sets the variable to the combined value; applying it a
second time with the same inputs prepends the path again, yielding
`path ++ ":" ++ (value after one application)`, which always differs from the
value after one application. -/
theorem c1_second_application_prepends (b : EnvironmentBinding) (path : String)
    (w : World) :
    envGet (do_env_binding b path w).env b.name
        = some (b.get_value path (envGet w.env b.name))
  ∧ envGet (do_env_binding b path (do_env_binding b path w)).env b.name
        = some (path ++ ":" ++ b.get_value path (envGet w.env b.name))
  ∧ envGet (do_env_binding b path (do_env_binding b path w)).env b.name
        ≠ envGet (do_env_binding b path w).env b.name := by
  have h1 : envGet (do_env_binding b path w).env b.name
      = some (b.get_value path (envGet w.env b.name)) := by
    simp [do_env_binding, envGet_envSet]
  have h2 : envGet (do_env_binding b path (do_env_binding b path w)).env b.name
      = some (path ++ ":" ++ b.get_value path (envGet w.env b.name)) := by
    simp only [do_env_binding, envGet_envSet, h1]
    rfl
  refine ⟨h1, h2, ?_⟩
  rw [h1, h2]
  intro h
  exact prepend_colon_ne path (b.get_value path (envGet w.env b.name))
    (Option.some.inj h)

/-! ## C2 -/

theorem do_bindings_env_of_no_env (stores : String → String) (impl : Selection)
    (bs : List Binding) (w : World) (h : bindingsHaveEnv bs = false) :
    (_do_bindings stores impl bs w).env = w.env := by
  induction bs generalizing w with
  | nil => rfl
  | cons b rest ih =>
      cases b with
      | env eb => simp [bindingsHaveEnv] at h
      | other =>
          simp only [bindingsHaveEnv, List.any_cons] at h
          simp only [_do_bindings]
          exact ih w (by simpa [bindingsHaveEnv] using h)

theorem bindDeps_env_of_no_env (stores : String → String)
    (sels : List (String × Selection)) (deps : List Dependency) (w : World)
    (h : ∀ d ∈ deps, bindingsHaveEnv d.bindings = false) :
    (bindDeps stores sels deps w).1.env = w.env := by
  induction deps generalizing w with
  | nil => rfl
  | cons d rest ih =>
      have hrest : ∀ x ∈ rest, bindingsHaveEnv x.bindings = false :=
        fun x hx => h x (List.mem_cons_of_mem _ hx)
      simp only [bindDeps]
      cases hs : selsGet sels d.interface with
      | none => rfl
      | some dep_impl =>
          dsimp only
          by_cases hp : strStartsWith dep_impl.id "package:" = true
          · rw [if_pos hp]
            exact ih w hrest
          · rw [if_neg hp, ih _ hrest,
              do_bindings_env_of_no_env stores dep_impl d.bindings w
                (h d (List.mem_cons_self _ _))]

theorem bindAll_env_of_no_env (stores : String → String)
    (sels : List (String × Selection)) (todo : List (String × Selection)) (w : World)
    (h : ∀ q ∈ todo, bindingsHaveEnv q.2.bindings = false
          ∧ ∀ d ∈ q.2.dependencies, bindingsHaveEnv d.bindings = false) :
    (bindAll stores sels todo w).1.env = w.env := by
  induction todo generalizing w with
  | nil => rfl
  | cons q rest ih =>
      simp only [bindAll]
      have hq := h q (List.mem_cons_self _ _)
      have henv1 : (_do_bindings stores q.2 q.2.bindings w).env = w.env :=
        do_bindings_env_of_no_env stores q.2 q.2.bindings w hq.1
      rcases hbd : bindDeps stores sels q.2.dependencies
          (_do_bindings stores q.2 q.2.bindings w) with ⟨w2, oe⟩
      have henv2 : w2.env = w.env := by
        have := bindDeps_env_of_no_env stores sels q.2.dependencies
          (_do_bindings stores q.2 q.2.bindings w) hq.2
        rw [hbd] at this
        rw [this, henv1]
      cases oe with
      | none =>
          simp only []
          rw [ih w2 (fun x hx => h x (List.mem_cons_of_mem _ hx)), henv2]
      | some e => exact henv2

theorem bindingPhase_env_of_no_env (stores : String → String) (s : Selections)
    (w : World) (h : selectionsHaveEnv s = false) :
    (bindingPhase stores s w).1.env = w.env := by
  apply bindAll_env_of_no_env
  intro q hq
  simp only [selectionsHaveEnv, List.any_eq_false] at h
  have := h q hq
  constructor
  · cases hb : bindingsHaveEnv q.2.bindings
    · rfl
    · simp [hb] at this
  · intro d hd
    cases hb : bindingsHaveEnv d.bindings
    · rfl
    · have : q.2.dependencies.any (fun d => bindingsHaveEnv d.bindings) = true :=
        List.any_eq_true.2 ⟨d, hd, hb⟩
      simp [this] at *

theorem compute_prog_path_env (stores : String → String) (impl : Selection)
    (m : Option String) (w : World) :
    (compute_prog_path stores impl m w).2.env = w.env := by
  simp only [compute_prog_path, _get_implementation_path]
  split
  · rfl
  · split
    · split <;> rfl
    · rfl

/-- C2 counterexample: a fully cached selection set with one environment
binding, run with `dry_run`, no override and no wrapper, returns the computed
command line normally, but the process environment has been modified (the
binding phase runs before the dry-run check), contradicting the claim that no
environment variable changes. -/
theorem c2_counterexample :
    (execute_selections stores0 fs0 c2set [] true none none w0).1
        = Except.ok (ExecOutcome.reported "/impl/run" [])
  ∧ (execute_selections stores0 fs0 c2set [] true none none w0).2.env ≠ w0.env := by
  refine ⟨by decide, by decide⟩

/-- C2 (corrected): a fully cached selection set run with `dry_run`, no
override and no wrapper, whose root entry point resolves and exists, reports
the computed command line and returns normally without transferring control;
the resulting environment is exactly the one produced by the binding phase,
which runs before the dry-run check and may modify variables; the environment
is unmodified precisely when the set applies no environment bindings. -/
theorem c2_dry_run (stores : String → String) (fs : String → Bool) (s : Selections)
    (args : List String) (w w1 w2 : World) (root : Selection) (m p : String)
    (hb : bindingPhase stores s w = (w1, none))
    (hroot : selsGet s.sels s.interface = some root)
    (hm : resolve_main root none = some m)
    (hpp : compute_prog_path stores root (some m) w1 = (some p, w2))
    (hfs : fs p = true) :
    (execute_selections stores fs s args true none none w).1
        = Except.ok (ExecOutcome.reported p args)
  ∧ (execute_selections stores fs s args true none none w).2.env = w1.env
  ∧ (selectionsHaveEnv s = false → w1.env = w.env) := by
  have henv2 : w2.env = w1.env := by
    have h := compute_prog_path_env stores root (some m) w1
    rw [hpp] at h
    exact h
  have hrun : execute_selections stores fs s args true none none w
      = (Except.ok (ExecOutcome.reported p args),
         { env := w2.env, events := w2.events ++ [RunEvent.fsCheck p] }) := by
    simp only [execute_selections, hb, hroot, _execute, hm, hpp, hfs, pyTruthy,
      if_true]
    rfl
  refine ⟨by rw [hrun], by rw [hrun]; exact henv2, ?_⟩
  intro hno
  have h := bindingPhase_env_of_no_env stores s w hno
  rw [hb] at h
  exact h

/-- C2 witness: the corrected theorem applied to the concrete selection set
`c2set` from the empty environment. -/
theorem c2_dry_run_witness :
    (execute_selections stores0 fs0 c2set [] true none none w0).1
        = Except.ok (ExecOutcome.reported "/impl/run" [])
  ∧ (execute_selections stores0 fs0 c2set [] true none none w0).2.env = c2w1.env
  ∧ (selectionsHaveEnv c2set = false → c2w1.env = w0.env) :=
  c2_dry_run stores0 fs0 c2set [] w0 c2w1 c2w1 c2sel "run" "/impl/run"
    (by decide) (by decide) (by decide) (by decide) rfl

/-! ## C3 -/

/-- C3 counterexample: for the empty signature list, `confirm_trust_keys`
fails at `assert sigs` with an assertion failure, not with the
no-valid-signature (`UntrustedSignature`) error the claim names; it still
performs no trust-store write and no notify. -/
theorem c3_counterexample :
    confirm_trust_keys "http://example.com/feed" [] ["Y"]
        = (Except.error ConfirmError.assertFail, [])
  ∧ ConfirmError.assertFail ≠ ConfirmError.noValidSig := by
  refine ⟨by decide, by decide⟩

/-- C3 (corrected): a nonempty signature list with zero cryptographically
valid entries fails with the no-valid-signature error, performing no
trust-store write and no notify; the empty list instead fails the `assert
sigs` assertion, likewise performing no trust-store write and no notify. -/
theorem c3_no_valid_sigs (uri : String) (sigs : List Sig) (rs : List String) :
    (sigs ≠ [] → sigs.filter (fun s => s.valid) = [] →
        confirm_trust_keys uri sigs rs = (Except.error ConfirmError.noValidSig, []))
  ∧ (sigs = [] →
        confirm_trust_keys uri sigs rs = (Except.error ConfirmError.assertFail, [])) := by
  constructor
  · intro hne hfil
    have h1 : sigs.isEmpty = false := by
      cases sigs with
      | nil => exact absurd rfl hne
      | cons a l => rfl
    simp only [confirm_trust_keys, h1, Bool.false_eq_true, if_false, hfil,
      List.isEmpty_nil, if_true]
  · intro he
    subst he
    rfl

/-- C3 witness: the corrected theorem applied to a single invalid signature
and to the empty list. -/
theorem c3_witness :
    confirm_trust_keys "http://example.com/feed"
        [{ valid := false, fingerprint := "BAD" }] ["Y"]
        = (Except.error ConfirmError.noValidSig, [])
  ∧ confirm_trust_keys "http://example.com/feed" [] []
        = (Except.error ConfirmError.assertFail, []) :=
  ⟨(c3_no_valid_sigs "http://example.com/feed"
      [{ valid := false, fingerprint := "BAD" }] ["Y"]).1 (by decide) (by decide),
   (c3_no_valid_sigs "http://example.com/feed" [] []).2 rfl⟩

/-! ## C7 -/

/-- C7 (confirmed): for a signature list with at least one valid signature and
a response sequence giving affirmative confirmation, `confirm_trust_keys`
succeeds, and the trust-store trace is exactly one `trustKey` write per valid
signature's fingerprint, all for the domain derived from the interface URI's
authority, followed by exactly one `notify` after all the writes. -/
theorem c7_trust_all_valid (uri : String) (sigs : List Sig) (rs : List String)
    (hv : sigs.filter (fun s => s.valid) ≠ [])
    (ha : askLoop rs = Except.ok ()) :
    confirm_trust_keys uri sigs rs
      = (Except.ok (),
         ((sigs.filter fun s => s.valid).map fun s =>
            TrustEvent.trustKey s.fingerprint (domain_from_url uri))
           ++ [TrustEvent.notify]) := by
  have hne : sigs.isEmpty = false := by
    cases sigs with
    | nil => exact absurd rfl hv
    | cons a l => rfl
  have hfe : (sigs.filter fun s => s.valid).isEmpty = false := by
    cases hc : sigs.filter fun s => s.valid with
    | nil => exact absurd hc hv
    | cons a l => rfl
  simp only [confirm_trust_keys, hne, Bool.false_eq_true, if_false, hfe, ha]

/-- C7 witness: two valid signatures among three, confirmed on the third
prompt after an empty and an unrecognised answer; both fingerprints are
trusted for `example.com` and a single notify follows. -/
theorem c7_witness :
    confirm_trust_keys "http://example.com/feed" sigs7 ["", "zz", "y"]
      = (Except.ok (),
         [TrustEvent.trustKey "FP1" "example.com",
          TrustEvent.trustKey "FP2" "example.com", TrustEvent.notify]) := by
  rw [c7_trust_all_valid "http://example.com/feed" sigs7 ["", "zz", "y"]
    (by decide) (by decide)]
  decide

/-! ## C4, C5, C6 -/

theorem tableGet_tableSet (t : List (String × Download)) (u : String) (d : Download) :
    tableGet (tableSet t u d) u = some d := by
  induction t with
  | nil => simp [tableSet, tableGet]
  | cons p rest ih =>
      by_cases h : p.1 = u
      · simp [tableSet, tableGet, h]
      · simp [tableSet, tableGet, h, ih]

/-- C4 (confirmed): a second `get_download` for the same URL with
`force = false`, made while the first call's Download is still tracked,
returns exactly the first call's result: the same Download instance and an
unchanged coordinator state, so no second Download is created for that URL. -/
theorem c4_get_download_dedup (st : HandlerState) (url : String) :
    get_download (get_download st url false).1 url false = get_download st url false := by
  cases h : tableGet st.monitored_downloads url with
  | some dl =>
      have h1 : get_download st url false = (st, dl) := by
        simp [get_download, h]
      rw [h1]
      simp [get_download, h]
  | none =>
      have h1 : get_download st url false = create_download st url := by
        simp [get_download, h]
      rw [h1]
      simp [get_download, create_download, monitor_download, tableGet_tableSet]

/-- C5 (confirmed): `get_download` with `force = true` on a URL with a tracked
Download aborts the tracked one first — the `aborted` event precedes the
`created` and `started` events of the fresh Download in the trace — and the
table entry for the URL ends up holding the fresh Download, which is distinct
from the old one. -/
theorem c5_force_aborts_then_replaces (st : HandlerState) (url : String)
    (old : Download)
    (h : tableGet st.monitored_downloads url = some old)
    (hfresh : old.id ≠ st.nextId) :
    (get_download st url true).1.events
        = st.events ++ [DlEvent.aborted old.id, DlEvent.created st.nextId,
            DlEvent.started st.nextId, DlEvent.tableSet url st.nextId,
            DlEvent.watchAdded st.nextId]
  ∧ (get_download st url true).2.id = st.nextId
  ∧ tableGet (get_download st url true).1.monitored_downloads url
        = some (get_download st url true).2
  ∧ (get_download st url true).2 ≠ old := by
  have h1 : get_download st url true
      = create_download { st with events := st.events ++ [DlEvent.aborted old.id] } url := by
    simp [get_download, h]
  refine ⟨?_, ?_, ?_, ?_⟩
  · rw [h1]
    simp [create_download, monitor_download]
  · rw [h1]
    rfl
  · rw [h1]
    simp [create_download, monitor_download, tableGet_tableSet]
  · rw [h1]
    intro hc
    apply hfresh
    rw [← hc]
    rfl

/-- C5 witness: the theorem applied to a state tracking one download with
allocation number 0 for the URL. -/
theorem c5_witness :
    (get_download st5 "http://dl/u" true).1.events
        = [DlEvent.aborted 0, DlEvent.created 1, DlEvent.started 1,
           DlEvent.tableSet "http://dl/u" 1, DlEvent.watchAdded 1]
  ∧ (get_download st5 "http://dl/u" true).2.id = 1
  ∧ tableGet (get_download st5 "http://dl/u" true).1.monitored_downloads "http://dl/u"
        = some (get_download st5 "http://dl/u" true).2
  ∧ (get_download st5 "http://dl/u" true).2 ≠ dl50 := by
  have h := c5_force_aborts_then_replaces st5 "http://dl/u" dl50 (by decide) (by decide)
  simpa [st5] using h

/-- C6 counterexample: in the state where a `wait_for_downloads` call is still
active (`_loop` is set) but the download table is empty — reachable from the
close handler of the last download, which runs before `_loop` is cleared — a
re-entrant call returns immediately rather than failing the assertion, so the
claim's "fails fast (assertion-style fatal) in every state" is false. -/
theorem c6_counterexample :
    wait_for_downloads st6 = WaitOutcome.returnedImmediately
  ∧ WaitOutcome.returnedImmediately ≠ WaitOutcome.assertFailed := by
  refine ⟨rfl, by decide⟩

/-- C6 (corrected): a re-entrant `wait_for_downloads` call made while
downloads are tracked fails fast on the `assert self._loop is None`; a call
with zero tracked downloads — re-entrant or not — returns immediately without
entering any loop; and in no state does a re-entrant call enter a nested
loop. -/
theorem c6_wait_reentrancy (st : HandlerState) :
    (st.loopActive = true → st.monitored_downloads ≠ [] →
        wait_for_downloads st = WaitOutcome.assertFailed)
  ∧ (st.monitored_downloads = [] →
        wait_for_downloads st = WaitOutcome.returnedImmediately)
  ∧ (st.loopActive = true → wait_for_downloads st ≠ WaitOutcome.enteredLoop) := by
  refine ⟨?_, ?_, ?_⟩
  · intro hl hm
    cases hmm : st.monitored_downloads with
    | nil => exact absurd hmm hm
    | cons a l => simp [wait_for_downloads, hmm, hl]
  · intro hm
    simp [wait_for_downloads, hm]
  · intro hl
    cases hmm : st.monitored_downloads with
    | nil => simp [wait_for_downloads, hmm]
    | cons a l => simp [wait_for_downloads, hmm, hl]

/-- C6 witness: the corrected theorem applied to a state with one tracked
download during an active wait (assertion failure) and to a state with no
tracked downloads during an active wait (immediate return). -/
theorem c6_witness :
    wait_for_downloads st6b = WaitOutcome.assertFailed
  ∧ wait_for_downloads st6 = WaitOutcome.returnedImmediately :=
  ⟨(c6_wait_reentrancy st6b).1 rfl (by decide), (c6_wait_reentrancy st6).2.1 rfl⟩

/-! ## C8, C9, C10 -/

theorem compute_prog_path_none (stores : String → String) (impl : Selection)
    (w : World) : compute_prog_path stores impl none w = (none, w) := by
  unfold compute_prog_path
  split
  · rfl
  · rfl

theorem resolve_main_none (impl : Selection) (h : impl.main = none) :
    resolve_main impl none = none := by
  unfold resolve_main
  split
  · simp [pyTruthy, h]
  · exact h

/-- C8 (confirmed): a root implementation with no declared `main`, launched
with no override, fails with the missing-entry-point error while leaving the
world untouched — in particular no filesystem existence check is traced — and,
for any override, a filesystem existence check appears in the trace only when
an entry point was determined. -/
theorem c8_missing_main (stores : String → String) (fs : String → Bool)
    (impl : Selection) (args : List String) (dry : Bool) (wrapper : Option String)
    (w : World) :
    (impl.main = none →
        _execute stores fs impl args dry none wrapper w
          = (Except.error (RunError.missingEntryPoint impl.id), w))
  ∧ (∀ main p,
        RunEvent.fsCheck p ∈ (_execute stores fs impl args dry main wrapper w).2.events →
        RunEvent.fsCheck p ∈ w.events ∨ (resolve_main impl main).isSome = true) := by
  constructor
  · intro h
    simp only [_execute, resolve_main_none impl h, compute_prog_path_none]
  · intro main p hp
    cases hm : resolve_main impl main with
    | none =>
        left
        simp only [_execute, hm, compute_prog_path_none] at hp
        exact hp
    | some mv => right; rfl

/-- C8 witness: the theorem applied to an implementation with no `main` (error
with no filesystem check) and to a run whose trace does contain a filesystem
check (an entry point was determined). -/
theorem c8_witness :
    _execute stores0 fs0 impl8 [] true none none w0
        = (Except.error (RunError.missingEntryPoint "/i8"), w0)
  ∧ (RunEvent.fsCheck "/i8b/run" ∈ w0.events
        ∨ (resolve_main impl8b (some "run")).isSome = true) :=
  ⟨(c8_missing_main stores0 fs0 impl8 [] true none w0).1 rfl,
   (c8_missing_main stores0 fs0 impl8b [] true none w0).2 (some "run") "/i8b/run"
     (by decide)⟩

/-- C9 (confirmed): when a launch reaches the invocation stage with a
(non-empty, hence truthy) wrapper `wrap`, entry point `p` and original
arguments `args`, the computed invocation is exactly the shell `/bin/sh` with
arguments `-c`, `wrap ++ ' "$@"'`, `-`, `p`, followed by `args` in order —
reported on a dry run, transferred to on a live run. -/
theorem c9_wrapper_invocation (stores : String → String) (fs : String → Bool)
    (impl : Selection) (args : List String) (dry : Bool) (main : Option String)
    (wrap m p : String) (w w2 : World)
    (hm : resolve_main impl main = some m)
    (hpp : compute_prog_path stores impl (some m) w = (some p, w2))
    (hfs : fs p = true)
    (hw : wrap ≠ "") :
    (_execute stores fs impl args dry main (some wrap) w).1
      = Except.ok ((if dry then ExecOutcome.reported else ExecOutcome.execed)
          "/bin/sh" (["-c", wrap ++ " \"$@\"", "-", p] ++ args)) := by
  have htr : pyTruthy (some wrap) = true := by
    cases wrap with
    | mk l =>
        cases l with
        | nil => exact absurd rfl hw
        | cons c cs => rfl
  simp only [_execute, hm, hpp, hfs, if_true, finalOutcome, htr]
  cases dry with
  | true => rfl
  | false => rfl

/-- C9 witness: the theorem applied to a concrete cached implementation with
wrapper `trace`, entry point `/i9/run` and one original argument. -/
theorem c9_witness :
    (_execute stores0 fs0 impl9 ["a1"] true none (some "trace") w0).1
      = Except.ok (ExecOutcome.reported "/bin/sh"
          ["-c", "trace \"$@\"", "-", "/i9/run", "a1"]) := by
  have h := c9_wrapper_invocation stores0 fs0 impl9 ["a1"] true none "trace"
    "run" "/i9/run" w0 w0 (by decide) (by decide) rfl (by decide)
  simpa using h

/-- C10 (confirmed): for a root implementation whose id starts with
`package:`, the entry point is the override when that is given (truthy),
otherwise the declared `main`; the program path is that entry point verbatim —
`compute_prog_path` neither consults the store nor changes the world — no
cache lookup is ever traced, and a dry run launches exactly that path. -/
theorem c10_package_path (stores : String → String) (fs : String → Bool)
    (impl : Selection) (args : List String) (main : Option String) (w : World)
    (dry : Bool)
    (hpkg : strStartsWith impl.id "package:" = true) :
    resolve_main impl main = (if pyTruthy main then main else impl.main)
  ∧ compute_prog_path stores impl (resolve_main impl main) w
        = (resolve_main impl main, w)
  ∧ (∀ i, RunEvent.cacheLookup i ∈ (_execute stores fs impl args dry main none w).2.events
        → RunEvent.cacheLookup i ∈ w.events)
  ∧ (∀ m, resolve_main impl main = some m → fs m = true →
        (_execute stores fs impl args true main none w).1
          = Except.ok (ExecOutcome.reported m args)) := by
  have h1 : resolve_main impl main = (if pyTruthy main then main else impl.main) := by
    unfold resolve_main
    rw [if_pos hpkg]
  have h2 : ∀ mo : Option String,
      compute_prog_path stores impl mo w = (mo, w) := by
    intro mo
    unfold compute_prog_path
    rw [if_pos hpkg]
  refine ⟨h1, h2 _, ?_, ?_⟩
  · intro i hi
    cases hm : resolve_main impl main with
    | none =>
        simp only [_execute, hm, compute_prog_path_none] at hi
        exact hi
    | some mv =>
        simp only [_execute, hm, h2] at hi
        by_cases hf : fs mv = true
        · rw [if_pos hf] at hi
          simp only [List.mem_append, List.mem_singleton] at hi
          cases hi with
          | inl h => exact h
          | inr h => exact absurd h (by simp)
        · rw [if_neg hf] at hi
          simp only [List.mem_append, List.mem_singleton] at hi
          cases hi with
          | inl h => exact h
          | inr h => exact absurd h (by simp)
  · intro m hm hf
    simp only [_execute, hm, h2, hf, if_true, finalOutcome, pyTruthy]
    rfl

/-- C10 witness: the theorem applied to a `package:` implementation launched
once with no override (declared `main` used verbatim, leading slash intact, no
cache lookup) and once with an override (override used verbatim). -/
theorem c10_witness :
    resolve_main impl10 none = some "/usr/bin/gimp"
  ∧ (_execute stores0 fs0 impl10 [] true none none w0).1
        = Except.ok (ExecOutcome.reported "/usr/bin/gimp" [])
  ∧ (_execute stores0 fs0 impl10 [] true (some "/custom") none w0).1
        = Except.ok (ExecOutcome.reported "/custom" []) := by
  have ha := c10_package_path stores0 fs0 impl10 [] none w0 true (by decide)
  have hb := c10_package_path stores0 fs0 impl10 [] (some "/custom") w0 true (by decide)
  refine ⟨by rw [ha.1]; decide, ?_, ?_⟩
  · exact ha.2.2.2 "/usr/bin/gimp" (by rw [ha.1]; decide) rfl
  · exact hb.2.2.2 "/custom" (by rw [hb.1]; decide) rfl

end ZeroInstall
